import Mathlib

/-!
# QtCSG kernel — shallow embedding and verification

This file embeds the CSG kernel of `src/qtcsg/qtcsg.cpp` (QtCSG) in Lean 4
and settles a list of claims about it.

Modelling conventions:

* Scalars are `ℚ`.  The C++ kernel computes with `float`; all claims treated
  here are control-flow and structural claims whose case analysis is written
  in terms of exact comparisons, so exact rational arithmetic is the faithful
  shallow embedding (the spec itself reads "modulo floating point").
* `QVector3D::normalized()` involves a square root, which has no exact
  rational form.  It is threaded through the development as an abstract
  parameter `normalize : V3 → V3`; every theorem holds for all of them.
* `QList` appends become list concatenation; in-place mutation becomes
  explicit state passing.
-/

namespace QtCSG

/-- Rational 3D vector, embedding `QVector3D`. -/
structure V3 where
  x : ℚ
  y : ℚ
  z : ℚ
deriving DecidableEq

namespace V3

/-- Component-wise sum, `QVector3D::operator+`. -/
def add (a b : V3) : V3 := ⟨a.x + b.x, a.y + b.y, a.z + b.z⟩

/-- Component-wise difference, `QVector3D::operator-`. -/
def sub (a b : V3) : V3 := ⟨a.x - b.x, a.y - b.y, a.z - b.z⟩

/-- Component-wise negation, `QVector3D::operator-` (unary). -/
def neg (a : V3) : V3 := ⟨-a.x, -a.y, -a.z⟩

/-- Scalar multiple, `QVector3D::operator*(vector, float)`. -/
def smul (a : V3) (t : ℚ) : V3 := ⟨a.x * t, a.y * t, a.z * t⟩

/-- The zero vector, `QVector3D{}`. -/
def zero : V3 := ⟨0, 0, 0⟩

/-- `QVector3D::isNull`: all components are zero. -/
def isNull (v : V3) : Prop := v = zero

instance : DecidablePred isNull := fun v => inferInstanceAs (Decidable (v = zero))

end V3

/-- `QtCSG::dotProduct` (qtcsgmath.h), i.e. `QVector3D::dotProduct`. -/
def dotProduct (a b : V3) : ℚ := a.x * b.x + a.y * b.y + a.z * b.z

/-- `QtCSG::crossProduct` (qtcsgmath.h), i.e. `QVector3D::crossProduct`. -/
def crossProduct (a b : V3) : V3 :=
  ⟨a.y * b.z - a.z * b.y, a.z * b.x - a.x * b.z, a.x * b.y - a.y * b.x⟩

/-- `QtCSG::lerp` (qtcsgmath.h): `a + (b - a) * t`. -/
def lerp (a b : V3) (t : ℚ) : V3 := a.add ((b.sub a).smul t)

/-- A vertex of a polygon (`QtCSG::Vertex`): position and normal. -/
structure Vertex where
  position : V3
  normal : V3
deriving DecidableEq

instance : Inhabited Vertex := ⟨⟨V3.zero, V3.zero⟩⟩

/-- `Vertex::flip`: negate the normal. -/
def Vertex.flip (v : Vertex) : Vertex := ⟨v.position, v.normal.neg⟩

/-- `Vertex::interpolated`: linear interpolation of position and normal. -/
def Vertex.interpolated (v other : Vertex) (t : ℚ) : Vertex :=
  ⟨lerp v.position other.position t, lerp v.normal other.normal t⟩

/-- A plane in 3D space (`QtCSG::Plane`): normal and offset `w`.
The C++ default constructor leaves `m_normal` zero; we take `w = 0` for the
default as well (its value is never read while the normal is null). -/
structure Plane where
  normal : V3
  w : ℚ
deriving DecidableEq

/-- The default-constructed (null) plane. -/
def Plane.null : Plane := ⟨V3.zero, 0⟩

/-- `Plane::isNull`: the normal is the zero vector. -/
def Plane.isNull (p : Plane) : Prop := p.normal.isNull

instance : DecidablePred Plane.isNull :=
  fun p => inferInstanceAs (Decidable (p.normal.isNull))

/-- `Plane::flip`: negate normal and offset. -/
def Plane.flip (p : Plane) : Plane := ⟨p.normal.neg, -p.w⟩

/-- `Plane::fromPoints`, with the floating-point normalization abstracted:
`n = normalize (cross (b - a) (c - a))`, `w = dot n a`. -/
def Plane.fromPoints (normalize : V3 → V3) (a b c : V3) : Plane :=
  let n := normalize (crossProduct (b.sub a) (c.sub a))
  ⟨n, dotProduct n a⟩

/-- Modelled from the spec: the opaque per-polygon `shared` payload
(`QVariant` in the source).  The kernel never inspects it, only copies it, so
any inhabited type with decidable equality is a faithful model. -/
structure Shared where
  tag : ℕ
deriving DecidableEq

/-- The default-constructed (null) shared payload, `QVariant{}`. -/
def Shared.null : Shared := ⟨0⟩

/-- A convex polygon (`QtCSG::Polygon`): vertices, shared payload, and the
plane cached at construction time.  Stored as plain data, exactly like the
C++ members `m_vertices`, `m_shared`, `m_plane`. -/
structure Polygon where
  vertices : List Vertex
  shared : Shared
  plane : Plane
deriving DecidableEq

instance : Inhabited Polygon := ⟨⟨[], Shared.null, Plane.null⟩⟩

/-- The `Polygon` constructor: caches the plane computed from the positions
of the first three vertices via `Plane::fromPoints`. -/
def Polygon.ofVertices (normalize : V3 → V3) (vs : List Vertex) (shared : Shared) : Polygon :=
  ⟨vs, shared,
   Plane.fromPoints normalize
     (vs.getD 0 default).position (vs.getD 1 default).position (vs.getD 2 default).position⟩

/-- `Polygon::flip`: reverse the vertex order, flip every vertex, and flip
the cached plane. -/
def Polygon.flip (p : Polygon) : Polygon :=
  ⟨(p.vertices.reverse).map Vertex.flip, p.shared, p.plane.flip⟩

/-- Modelled from the spec: the `QtCSG::Error` status enumeration (declared
in the current `qtcsg.h`, which is absent from the sources; values from the
spec's taxonomy plus `ConvexityError` used by `Geometry::validate`). -/
inductive Error where
  | NoError
  | RecursionError
  | NotSupportedError
  | FileSystemError
  | FileFormatError
  | ConvexityError
deriving DecidableEq

/-- A solid given by its boundary polygon soup plus an error code
(`QtCSG::Geometry`). -/
structure Geometry where
  polygons : List Polygon
  error : Error
deriving DecidableEq

/-- `Geometry{polygons}`: an error-free geometry. -/
def Geometry.ofPolygons (ps : List Polygon) : Geometry := ⟨ps, Error.NoError⟩

/-- `Geometry{error}`: an erroneous geometry with no polygons. -/
def Geometry.ofError (e : Error) : Geometry := ⟨[], e⟩

/-- A BSP tree node (`QtCSG::Node`): splitting plane, coplanar polygons and
optional front/back children (null `shared_ptr` becomes `none`). -/
inductive Node where
  | mk (plane : Plane) (polygons : List Polygon) (front : Option Node) (back : Option Node)

/-- The node's splitting plane, `Node::plane()`. -/
def Node.plane : Node → Plane
  | .mk p _ _ _ => p

/-- The node's own polygon list, `Node::polygons()`. -/
def Node.polygons : Node → List Polygon
  | .mk _ ps _ _ => ps

/-- The front child, `Node::front()`. -/
def Node.front : Node → Option Node
  | .mk _ _ f _ => f

/-- The back child, `Node::back()`. -/
def Node.back : Node → Option Node
  | .mk _ _ _ b => b

/-- The default-constructed node `Node{}`: null plane, no polygons, no
children. -/
def Node.empty : Node := .mk Plane.null [] none none

namespace Inspection

/-- Modelled from the spec: the inspection event kinds delivered to the
optional callback (declared in the current `qtcsg.h`, absent from the
sources). -/
inductive Event where
  | Build
  | Invert
  | Clip
deriving DecidableEq

/-- Modelled from the spec: the callback's answer; `Abort` truncates the
work at the current node. -/
inductive Result where
  | Proceed
  | Abort
deriving DecidableEq

end Inspection

/-- Modelled from the spec: the per-call configuration `QtCSG::Options`
(declared in the current `qtcsg.h`, absent from the sources): `epsilon`
(split tolerance), `recursionLimit` (maximum build depth) and the optional
inspection callback receiving an event and an optional node detail. -/
structure Options where
  epsilon : ℚ
  recursionLimit : ℕ
  inspection : Option (Inspection.Event → Option Node → Inspection.Result)

/-- Evaluates the optional inspection callback: `Proceed` when none is
configured, mirroring `if (options.inspection) … == Abort`. -/
def inspect (opts : Options) (event : Inspection.Event) (detail : Option Node) :
    Inspection.Result :=
  match opts.inspection with
  | none => .Proceed
  | some callback => callback event detail

/-- `Utils::reportError` (qtcsgutils.cpp): `true` exactly on a real error
(default build, `QTCSG_IGNORE_ERRORS` not defined; logging is ignored). -/
def reportError (e : Error) : Bool := e != Error.NoError

/-! ## Polygon splitting (`split` in qtcsg.cpp)

The C++ `VertexType` bitflags are embedded as their numeric values:
`Coplanar = 0`, `Front = 1`, `Back = 2`, `Spanning = 3`, combined with
`Nat.lor`. -/

/-- One vertex classification step of `split`:
`(t < -epsilon) ? Back : (t > epsilon) ? Front : Coplanar`. -/
def classify (t eps : ℚ) : ℕ :=
  if t < -eps then 2 else if eps < t then 1 else 0

/-- The signed distance `t = dot(plane.normal, v.position) - plane.w` used by
`split` to classify a vertex against `plane`. -/
def signedDistance (plane : Plane) (v : Vertex) : ℚ :=
  dotProduct plane.normal v.position - plane.w

/-- The classification loop of `split`: one pass over the vertices that both
ORs the per-vertex types into the polygon type and records the per-vertex
types, mirroring the C++ `for` loop over `vertices`. -/
def classifyVertices (plane : Plane) (eps : ℚ) (vs : List Vertex) : ℕ × List ℕ :=
  vs.foldl
    (fun acc v =>
      let ty := classify (signedDistance plane v) eps
      (acc.1.lor ty, acc.2 ++ [ty]))
    (0, [])

/-- The `Spanning` walk of `split`: for each index `i` with successor
`j = (i+1) % n`, append `v_i` to the front fragment unless its type is
`Back`, to the back fragment unless its type is `Front`, and for each edge
with `(t_i | t_j) == Spanning` append the interpolated intersection vertex
to both fragments. -/
def spanningWalk (plane : Plane) (vs : List Vertex) (types : List ℕ) :
    List Vertex × List Vertex :=
  (List.range vs.length).foldl
    (fun fb i =>
      let j := (i + 1) % vs.length
      let ti := types.getD i 0
      let tj := types.getD j 0
      let vi := vs.getD i default
      let vj := vs.getD j default
      let f := if ti ≠ 2 then fb.1 ++ [vi] else fb.1
      let b := if ti ≠ 1 then fb.2 ++ [vi] else fb.2
      if ti.lor tj = 3 then
        let t := (plane.w - dotProduct plane.normal vi.position)
                 / dotProduct plane.normal (vj.position.sub vi.position)
        let v := vi.interpolated vj t
        (f ++ [v], b ++ [v])
      else (f, b))
    ([], [])

/-- The four output lists of `split`, as the deltas appended to the caller's
`coplanarFront`, `coplanarBack`, `front` and `back` lists. -/
structure SplitResult where
  coplanarFront : List Polygon
  coplanarBack : List Polygon
  front : List Polygon
  back : List Polygon
deriving DecidableEq

/-- `split(polygon, plane, …)` from qtcsg.cpp: classify each vertex and the
whole polygon in one pass, then dispatch on the polygon type, cutting a
`Spanning` polygon into fragments that are emitted only with ≥ 3 vertices. -/
def split (normalize : V3 → V3) (polygon : Polygon) (plane : Plane) (opts : Options) :
    SplitResult :=
  let classified := classifyVertices plane opts.epsilon polygon.vertices
  let polygonType := classified.1
  let vertexTypes := classified.2
  if polygonType = 0 then
    if 0 < dotProduct plane.normal polygon.plane.normal then
      ⟨[polygon], [], [], []⟩
    else
      ⟨[], [polygon], [], []⟩
  else if polygonType = 1 then ⟨[], [], [polygon], []⟩
  else if polygonType = 2 then ⟨[], [], [], [polygon]⟩
  else
    let fb := spanningWalk plane polygon.vertices vertexTypes
    ⟨[], [],
     if 3 ≤ fb.1.length then [Polygon.ofVertices normalize fb.1 polygon.shared] else [],
     if 3 ≤ fb.2.length then [Polygon.ofVertices normalize fb.2 polygon.shared] else []⟩

/-- The splitting algorithm as worded by the spec (§4.1): classify every
vertex by its signed distance, OR the classifications into the overall type,
then dispatch — written independently of `split` with a two-pass
classification, to be compared against it. -/
def splitSpec (normalize : V3 → V3) (polygon : Polygon) (plane : Plane) (opts : Options) :
    SplitResult :=
  let vertexTypes :=
    polygon.vertices.map (fun v => classify (signedDistance plane v) opts.epsilon)
  let polygonType := vertexTypes.foldl Nat.lor 0
  if polygonType = 0 then
    if 0 < dotProduct plane.normal polygon.plane.normal then
      ⟨[polygon], [], [], []⟩
    else
      ⟨[], [polygon], [], []⟩
  else if polygonType = 1 then ⟨[], [], [polygon], []⟩
  else if polygonType = 2 then ⟨[], [], [], [polygon]⟩
  else
    let fb := spanningWalk plane polygon.vertices vertexTypes
    ⟨[], [],
     if 3 ≤ fb.1.length then [Polygon.ofVertices normalize fb.1 polygon.shared] else [],
     if 3 ≤ fb.2.length then [Polygon.ofVertices normalize fb.2 polygon.shared] else []⟩

/-! ## BSP tree operations (`Node` in qtcsg.cpp) -/

/-- `Node::allPolygons`: own polygons, then the front subtree's, then the
back subtree's. -/
def Node.allPolygons : Node → List Polygon
  | .mk _ ps f b =>
    ps ++ (match f with | some t => t.allPolygons | none => [])
       ++ (match b with | some t => t.allPolygons | none => [])

/-- `Node::invert`: unless the inspection callback aborts, flip every stored
polygon and the node's plane, invert both children, and swap them. -/
def Node.invert (opts : Options) : Node → Node
  | .mk plane polys front back =>
    if inspect opts .Invert none = .Abort then .mk plane polys front back
    else
      .mk plane.flip (polys.map Polygon.flip)
        (match back with | some t => some (t.invert opts) | none => none)
        (match front with | some t => some (t.invert opts) | none => none)

/-- The loop of `Node::clipPolygons`, with `coplanarFront`/`front` aliased
into the first list and `coplanarBack`/`back` into the second:
`split(p, m_plane, &front, &back, &front, &back, options)` for each `p`. -/
def clipPartition (normalize : V3 → V3) (opts : Options) (plane : Plane)
    (polys : List Polygon) : List Polygon × List Polygon :=
  polys.foldl
    (fun fb p =>
      let r := split normalize p plane opts
      (fb.1 ++ r.coplanarFront ++ r.front, fb.2 ++ r.coplanarBack ++ r.back))
    ([], [])

/-- `Node::clipPolygons`: with a null plane return the input unchanged;
otherwise split every polygon against the node's plane, recurse the front
list into the front child when present, recurse the back list into the back
child when present and clear it otherwise, and return front then back. -/
def Node.clipPolygons (normalize : V3 → V3) (opts : Options) :
    Node → List Polygon → List Polygon
  | .mk plane _ front back, polygons =>
    if plane.isNull then polygons
    else
      let fb := clipPartition normalize opts plane polygons
      let f := match front with
               | some t => t.clipPolygons normalize opts fb.1
               | none => fb.1
      let b := match back with
               | some t => t.clipPolygons normalize opts fb.2
               | none => []
      f ++ b

/-- `Node::clipTo`: unless the inspection callback aborts, replace the own
polygon list by `bsp.clipPolygons(m_polygons)` and recurse into both
children. -/
def Node.clipTo (normalize : V3 → V3) (opts : Options) : Node → Node → Node
  | .mk plane polys front back, bsp =>
    if inspect opts .Clip (some bsp) = .Abort then .mk plane polys front back
    else
      .mk plane (bsp.clipPolygons normalize opts polys)
        (match front with | some t => some (t.clipTo normalize opts bsp) | none => none)
        (match back with | some t => some (t.clipTo normalize opts bsp) | none => none)

/-- The split loop of `Node::build`, with `coplanarFront` and `coplanarBack`
both aliased onto the node's own polygon list (initially `polys0`):
`split(p, m_plane, &m_polygons, &m_polygons, &front, &back, options)`. -/
def buildPartition (normalize : V3 → V3) (opts : Options) (plane : Plane)
    (polys0 polys : List Polygon) : List Polygon × List Polygon × List Polygon :=
  polys.foldl
    (fun acc p =>
      let r := split normalize p plane opts
      (acc.1 ++ r.coplanarFront ++ r.coplanarBack, acc.2.1 ++ r.front, acc.2.2 ++ r.back))
    (polys0, [], [])

/-- `Node::build(polygons, level, options)`: refuse with `RecursionError` at
the recursion limit; honour an inspection `Abort` with `NoError`; do nothing
for an empty list; otherwise adopt the first polygon's plane when the node
has none, split all polygons, and recurse into lazily created front/back
children at `level + 1`, returning the first error encountered (front before
back).  Returns the updated node along with the error. -/
def Node.build (normalize : V3 → V3) (opts : Options) (n : Node)
    (polygons : List Polygon) (level : ℕ) : Node × Error :=
  if _h : opts.recursionLimit ≤ level then (n, .RecursionError)
  else if inspect opts .Build none = .Abort then (n, .NoError)
  else if polygons.isEmpty then (n, .NoError)
  else
    match n with
    | .mk plane0 polys0 front0 back0 =>
      let plane := if plane0.isNull then (polygons.headD default).plane else plane0
      let acc := buildPartition normalize opts plane polys0 polygons
      let frontResult :=
        if acc.2.1.isEmpty then (front0, Error.NoError)
        else
          let r := Node.build normalize opts (front0.getD Node.empty) acc.2.1 (level + 1)
          (some r.1, r.2)
      let backResult :=
        if acc.2.2.isEmpty then (back0, Error.NoError)
        else
          let r := Node.build normalize opts (back0.getD Node.empty) acc.2.2 (level + 1)
          (some r.1, r.2)
      let result := if frontResult.2 ≠ .NoError then frontResult.2 else backResult.2
      (.mk plane acc.1 frontResult.1 backResult.1, result)
termination_by opts.recursionLimit - level
decreasing_by all_goals omega

/-! ## Boolean operators (qtcsg.cpp)

The public `Node::build(polygons, options)` entry used by the operators
starts at level 0 (modelled from the spec's "tree depth"; the overload's
declaration lives in the current `qtcsg.h`, absent from the sources). -/

/-- `QtCSG::merge` (union).  Note the faithful rhs precondition branch:
the source returns `Geometry{lhs.error()}` there. -/
def merge (normalize : V3 → V3) (lhs rhs : Geometry) (opts : Options) : Geometry :=
  if reportError lhs.error then Geometry.ofError lhs.error
  else if reportError rhs.error then Geometry.ofError lhs.error
  else
    let ra := Node.build normalize opts Node.empty lhs.polygons 0
    if reportError ra.2 then Geometry.ofError ra.2
    else
      let rb := Node.build normalize opts Node.empty rhs.polygons 0
      if reportError rb.2 then Geometry.ofError rb.2
      else
        let a1 := ra.1.clipTo normalize opts rb.1
        let b1 := rb.1.clipTo normalize opts a1
        let b2 := b1.invert opts
        let b3 := b2.clipTo normalize opts a1
        let b4 := b3.invert opts
        let rc := Node.build normalize opts a1 b4.allPolygons 0
        if reportError rc.2 then Geometry.ofError rc.2
        else Geometry.ofPolygons rc.1.allPolygons

/-- `QtCSG::subtract` (difference), same error handling as `merge` with the
sequence `a.invert; a.clipTo(b); b.clipTo(a); b.invert; b.clipTo(a);
b.invert; a.build(b.allPolygons()); a.invert`. -/
def subtract (normalize : V3 → V3) (lhs rhs : Geometry) (opts : Options) : Geometry :=
  if reportError lhs.error then Geometry.ofError lhs.error
  else if reportError rhs.error then Geometry.ofError lhs.error
  else
    let ra := Node.build normalize opts Node.empty lhs.polygons 0
    if reportError ra.2 then Geometry.ofError ra.2
    else
      let rb := Node.build normalize opts Node.empty rhs.polygons 0
      if reportError rb.2 then Geometry.ofError rb.2
      else
        let a1 := ra.1.invert opts
        let a2 := a1.clipTo normalize opts rb.1
        let b1 := rb.1.clipTo normalize opts a2
        let b2 := b1.invert opts
        let b3 := b2.clipTo normalize opts a2
        let b4 := b3.invert opts
        let rc := Node.build normalize opts a2 b4.allPolygons 0
        if reportError rc.2 then Geometry.ofError rc.2
        else Geometry.ofPolygons (rc.1.invert opts).allPolygons

/-- `QtCSG::intersect` (intersection), same error handling as `merge` with
the sequence `a.invert; b.clipTo(a); b.invert; a.clipTo(b); b.clipTo(a);
a.build(b.allPolygons()); a.invert`. -/
def intersect (normalize : V3 → V3) (lhs rhs : Geometry) (opts : Options) : Geometry :=
  if reportError lhs.error then Geometry.ofError lhs.error
  else if reportError rhs.error then Geometry.ofError lhs.error
  else
    let ra := Node.build normalize opts Node.empty lhs.polygons 0
    if reportError ra.2 then Geometry.ofError ra.2
    else
      let rb := Node.build normalize opts Node.empty rhs.polygons 0
      if reportError rb.2 then Geometry.ofError rb.2
      else
        let a1 := ra.1.invert opts
        let b1 := rb.1.clipTo normalize opts a1
        let b2 := b1.invert opts
        let a2 := a1.clipTo normalize opts b2
        let b3 := b2.clipTo normalize opts a2
        let rc := Node.build normalize opts a2 b3.allPolygons 0
        if reportError rc.2 then Geometry.ofError rc.2
        else Geometry.ofPolygons (rc.1.invert opts).allPolygons

/-! ## Sphere generator (qtcsg.cpp) -/

/-- `QtCSG::sphere`.  The trigonometric unit normal
`(cos θ sin φ, cos φ, sin θ sin φ)` with `θ = 2πi/slices`, `φ = πj/stacks`
has no exact rational form and is abstracted as `sphereNormal i j`; every
claim treated here is independent of its values.  The loop structure —
`slices × stacks` elements, where the vertex at `(i+1, j)` is emitted only
for `j > 0` and the vertex at `(i+1, j+1)` only for `j < stacks - 1` — is
the source's. -/
def sphere (normalize : V3 → V3) (sphereNormal : ℕ → ℕ → V3)
    (center : V3) (radius : ℚ) (slices stackCount : ℕ) : Geometry :=
  let vertex := fun i j =>
    let n := sphereNormal i j
    Vertex.mk (center.add (n.smul radius)) n
  let polygons :=
    (List.range slices).flatMap fun i =>
      (List.range stackCount).map fun j =>
        let vs :=
          [vertex i j]
          ++ (if 0 < j then [vertex (i + 1) j] else [])
          ++ (if j < stackCount - 1 then [vertex (i + 1) (j + 1)] else [])
          ++ [vertex i (j + 1)]
        Polygon.ofVertices normalize vs Shared.null
  Geometry.ofPolygons polygons

/-! ## Helper lemmas -/

/-- Negating a vector twice is the identity. -/
theorem V3.neg_neg (v : V3) : v.neg.neg = v := by
  cases v; simp [V3.neg]

/-- Flipping a vertex twice is the identity. -/
theorem vertex_flip_involution (v : Vertex) : v.flip.flip = v := by
  cases v; simp [Vertex.flip, V3.neg_neg]

/-- Flipping a plane twice is the identity. -/
theorem plane_flip_involution (p : Plane) : p.flip.flip = p := by
  cases p; simp [Plane.flip, V3.neg_neg]

/-- Flipping a polygon twice is the identity. -/
theorem polygon_flip_involution (p : Polygon) : p.flip.flip = p := by
  have hv : Vertex.flip ∘ Vertex.flip = id := funext vertex_flip_involution
  cases p
  simp [Polygon.flip, plane_flip_involution, List.map_reverse, List.map_map, hv]

/-- A concrete default-ish configuration used by the witnesses below:
`epsilon = 1`, `recursionLimit = 1024`, no inspection callback. -/
def sampleOptions : Options := ⟨1, 1024, none⟩

/-! ## Claim C5 -/

/-- C5: `Node::build` invoked with `level` at or above
`options.recursionLimit` returns `RecursionError` without processing any
polygon and without modifying the node; the limit check precedes all other
work of the call.  (Termination of `build` holds by construction in this
embedding: it is a total function.) -/
theorem build_at_recursion_limit (normalize : V3 → V3) (opts : Options) (n : Node)
    (polygons : List Polygon) (level : ℕ) (h : opts.recursionLimit ≤ level) :
    Node.build normalize opts n polygons level = (n, Error.RecursionError) := by
  rw [Node.build.eq_def]
  simp [h]

/-- C5 witness: `recursionLimit = 0` refuses immediately at level 0. -/
theorem build_at_recursion_limit_witness :
    (Options.mk 1 0 none).recursionLimit ≤ 0 ∧
    Node.build id (Options.mk 1 0 none) Node.empty [default] 0
      = (Node.empty, Error.RecursionError) :=
  ⟨by decide, build_at_recursion_limit id (Options.mk 1 0 none) Node.empty [default] 0
      (by decide)⟩

/-! ## Claim C7 -/

/-- C7: when an inspection callback is configured and answers `Abort` to the
`Build` event delivered for a node (so the recursion limit check has already
passed), `Node::build` returns `NoError` and leaves the node unmodified —
silent truncation, not an error. -/
theorem build_abort_is_silent (normalize : V3 → V3) (opts : Options) (n : Node)
    (polygons : List Polygon) (level : ℕ)
    (callback : Inspection.Event → Option Node → Inspection.Result)
    (hcb : opts.inspection = some callback)
    (habort : callback Inspection.Event.Build none = Inspection.Result.Abort)
    (hlevel : level < opts.recursionLimit) :
    Node.build normalize opts n polygons level = (n, Error.NoError) := by
  rw [Node.build.eq_def]
  have h : ¬ opts.recursionLimit ≤ level := by omega
  simp [h, inspect, hcb, habort]

/-- C7 witness: an always-`Abort` callback makes `build` return the node
unchanged with `NoError` on a non-empty polygon list. -/
theorem build_abort_is_silent_witness :
    Node.build id (Options.mk 1 10 (some fun _ _ => Inspection.Result.Abort))
      Node.empty [default] 0 = (Node.empty, Error.NoError) :=
  build_abort_is_silent id _ Node.empty [default] 0 _ rfl rfl (by decide)

/-! ## Claim C1 -/

/-- C1 counter-evidence: evaluating the three operators at an error-free
lhs and an rhs carrying `RecursionError`.  All three return
`Geometry{lhs.error()}`, i.e. a `Geometry` flagged `NoError`, instead of one
carrying the rhs's error as the claim states. -/
theorem operators_lose_rhs_error :
    merge id (Geometry.ofPolygons []) (Geometry.ofError Error.RecursionError) sampleOptions
      = Geometry.ofError Error.NoError ∧
    subtract id (Geometry.ofPolygons []) (Geometry.ofError Error.RecursionError) sampleOptions
      = Geometry.ofError Error.NoError ∧
    intersect id (Geometry.ofPolygons []) (Geometry.ofError Error.RecursionError) sampleOptions
      = Geometry.ofError Error.NoError :=
  ⟨rfl, rfl, rfl⟩

/-! ## Claim C3 -/

/-- The clip loop unrolled: the two accumulated lists are the concatenations
of the per-polygon deltas. -/
theorem clipPartition_eq (normalize : V3 → V3) (opts : Options) (plane : Plane)
    (polys : List Polygon) :
    clipPartition normalize opts plane polys =
      (polys.flatMap fun p =>
         (split normalize p plane opts).coplanarFront ++ (split normalize p plane opts).front,
       polys.flatMap fun p =>
         (split normalize p plane opts).coplanarBack ++ (split normalize p plane opts).back) := by
  suffices h : ∀ (ps : List Polygon) (fb : List Polygon × List Polygon),
      ps.foldl
        (fun fb p =>
          let r := split normalize p plane opts
          (fb.1 ++ r.coplanarFront ++ r.front, fb.2 ++ r.coplanarBack ++ r.back))
        fb
      = (fb.1 ++ ps.flatMap fun p =>
           (split normalize p plane opts).coplanarFront ++ (split normalize p plane opts).front,
         fb.2 ++ ps.flatMap fun p =>
           (split normalize p plane opts).coplanarBack ++ (split normalize p plane opts).back) by
    unfold clipPartition
    rw [h]
    simp
  intro ps
  induction ps with
  | nil => intro fb; simp
  | cons p ps ih =>
    intro fb
    simp only [List.foldl_cons, List.flatMap_cons]
    rw [ih]
    simp [List.append_assoc]

/-- C3: `Node::clipPolygons` returns the input unchanged on a null plane;
otherwise it splits every polygon against the node's plane (coplanar
fragments joining front or back by orientation), recurses the front list
into the front child when present and keeps it otherwise, recurses the back
list into the back child when present and discards it entirely otherwise,
and returns the surviving front results followed by the surviving back
results. -/
theorem clipPolygons_characterization (normalize : V3 → V3) (opts : Options)
    (n : Node) (polys : List Polygon) :
    n.clipPolygons normalize opts polys =
      if n.plane.isNull then polys
      else
        (match n.front with
         | some c => c.clipPolygons normalize opts
             (polys.flatMap fun p =>
               (split normalize p n.plane opts).coplanarFront
                 ++ (split normalize p n.plane opts).front)
         | none =>
             polys.flatMap fun p =>
               (split normalize p n.plane opts).coplanarFront
                 ++ (split normalize p n.plane opts).front)
        ++
        (match n.back with
         | some c => c.clipPolygons normalize opts
             (polys.flatMap fun p =>
               (split normalize p n.plane opts).coplanarBack
                 ++ (split normalize p n.plane opts).back)
         | none => []) := by
  cases n with
  | mk plane ps front back =>
    rw [Node.clipPolygons]
    simp only [Node.plane, Node.front, Node.back, clipPartition_eq]

/-! ## Claim C2 -/

/-- Folding `Nat.lor` from an arbitrary seed factors the seed out. -/
theorem foldl_lor_seed (l : List ℕ) (a : ℕ) :
    l.foldl Nat.lor a = a.lor (l.foldl Nat.lor 0) := by
  induction l generalizing a with
  | nil => simp [Nat.lor]
  | cons x xs ih =>
    simp only [List.foldl_cons]
    rw [ih (a.lor x), ih (Nat.lor 0 x)]
    have h0 : Nat.lor 0 x = x := by simp [Nat.lor]
    rw [h0]
    exact Nat.lor_assoc a x (List.foldl Nat.lor 0 xs)

/-- The one-pass classification loop of `split` computes the OR of the
per-vertex classifications together with their list. -/
theorem classifyVertices_eq (plane : Plane) (eps : ℚ) (vs : List Vertex) :
    classifyVertices plane eps vs =
      ((vs.map fun v => classify (signedDistance plane v) eps).foldl Nat.lor 0,
       vs.map fun v => classify (signedDistance plane v) eps) := by
  suffices h : ∀ (a : ℕ) (l : List ℕ),
      vs.foldl
        (fun acc v =>
          let ty := classify (signedDistance plane v) eps
          (acc.1.lor ty, acc.2 ++ [ty]))
        (a, l)
      = (a.lor ((vs.map fun v => classify (signedDistance plane v) eps).foldl Nat.lor 0),
         l ++ vs.map fun v => classify (signedDistance plane v) eps) by
    unfold classifyVertices
    rw [h 0 []]
    simp [Nat.lor]
  induction vs with
  | nil => intro a l; simp [Nat.lor]
  | cons v vs ih =>
    intro a l
    simp only [List.foldl_cons, List.map_cons]
    rw [ih, foldl_lor_seed (vs.map fun u => classify (signedDistance plane u) eps)
      (Nat.lor 0 (classify (signedDistance plane v) eps))]
    have h0 : Nat.lor 0 (classify (signedDistance plane v) eps)
        = classify (signedDistance plane v) eps := by simp [Nat.lor]
    rw [h0]
    simp only [Prod.mk.injEq]
    exact ⟨Nat.lor_assoc _ _ _, by simp⟩

/-- C2: for positive `epsilon`, the `split` of qtcsg.cpp coincides with the
algorithm as worded by the spec (`splitSpec`): per-vertex classification by
signed distance, OR-combination into the polygon type, coplanar routing by
normal orientation, unmodified front/back routing, and the spanning walk
that emits only fragments with at least 3 vertices, tagged with the original
polygon's shared payload. -/
theorem split_meets_spec (normalize : V3 → V3) (polygon : Polygon) (plane : Plane)
    (opts : Options) (_heps : 0 < opts.epsilon) :
    split normalize polygon plane opts = splitSpec normalize polygon plane opts := by
  unfold split splitSpec
  rw [classifyVertices_eq]

/-- C2 witness: the two sides agree at a concrete spanning square split by
the plane `z = 0` with `epsilon = 1`. -/
theorem split_meets_spec_witness :
    (0 : ℚ) < sampleOptions.epsilon ∧
    split id
      ⟨[⟨⟨0, 0, -5⟩, ⟨0, 0, 1⟩⟩, ⟨⟨1, 0, -5⟩, ⟨0, 0, 1⟩⟩,
        ⟨⟨1, 0, 5⟩, ⟨0, 0, 1⟩⟩, ⟨⟨0, 0, 5⟩, ⟨0, 0, 1⟩⟩],
       Shared.null, ⟨⟨0, 1, 0⟩, 0⟩⟩
      ⟨⟨0, 0, 1⟩, 0⟩ sampleOptions
    = splitSpec id
      ⟨[⟨⟨0, 0, -5⟩, ⟨0, 0, 1⟩⟩, ⟨⟨1, 0, -5⟩, ⟨0, 0, 1⟩⟩,
        ⟨⟨1, 0, 5⟩, ⟨0, 0, 1⟩⟩, ⟨⟨0, 0, 5⟩, ⟨0, 0, 1⟩⟩],
       Shared.null, ⟨⟨0, 1, 0⟩, 0⟩⟩
      ⟨⟨0, 0, 1⟩, 0⟩ sampleOptions :=
  ⟨by decide,
   split_meets_spec id
     ⟨[⟨⟨0, 0, -5⟩, ⟨0, 0, 1⟩⟩, ⟨⟨1, 0, -5⟩, ⟨0, 0, 1⟩⟩,
       ⟨⟨1, 0, 5⟩, ⟨0, 0, 1⟩⟩, ⟨⟨0, 0, 5⟩, ⟨0, 0, 1⟩⟩],
      Shared.null, ⟨⟨0, 1, 0⟩, 0⟩⟩
     ⟨⟨0, 0, 1⟩, 0⟩ sampleOptions (by decide)⟩

/-! ## Claim C6 -/

/-- One-step unfolding of `Node::invert` at a constructor. -/
theorem invert_mk (opts : Options) (plane : Plane) (polys : List Polygon)
    (front back : Option Node) :
    Node.invert opts (Node.mk plane polys front back)
      = if inspect opts Inspection.Event.Invert none = Inspection.Result.Abort then
          Node.mk plane polys front back
        else
          Node.mk plane.flip (polys.map Polygon.flip)
            (match back with | some t => some (t.invert opts) | none => none)
            (match front with | some t => some (t.invert opts) | none => none) := by
  rw [Node.invert.eq_def]

/-- With no inspection callback, `Node::invert` is an involution. -/
theorem invert_invert (opts : Options) (hno : opts.inspection = none) :
    ∀ n : Node, (n.invert opts).invert opts = n
  | .mk plane polys front back => by
    have hin : ¬ inspect opts Inspection.Event.Invert none = Inspection.Result.Abort := by
      simp [inspect, hno]
    have hcomp : Polygon.flip ∘ Polygon.flip = id := funext polygon_flip_involution
    rw [invert_mk, if_neg hin]
    cases front with
    | none =>
      cases back with
      | none =>
        rw [invert_mk, if_neg hin]
        simp [plane_flip_involution, List.map_map, hcomp]
      | some b =>
        rw [invert_mk, if_neg hin]
        simp only []
        rw [invert_invert opts hno b]
        simp [plane_flip_involution, List.map_map, hcomp]
    | some f =>
      cases back with
      | none =>
        rw [invert_mk, if_neg hin]
        simp only []
        rw [invert_invert opts hno f]
        simp [plane_flip_involution, List.map_map, hcomp]
      | some b =>
        rw [invert_mk, if_neg hin]
        simp only []
        rw [invert_invert opts hno f, invert_invert opts hno b]
        simp [plane_flip_involution, List.map_map, hcomp]

/-- C6: with no inspection callback configured, applying `invert` twice is
the identity on the node — its plane, polygon list and children — and in
particular `node.inverted().inverted().allPolygons()` equals
`node.allPolygons()`. -/
theorem invert_twice_identity (opts : Options) (n : Node)
    (hno : opts.inspection = none) :
    (n.invert opts).invert opts = n ∧
    ((n.invert opts).invert opts).allPolygons = n.allPolygons :=
  ⟨invert_invert opts hno n, by rw [invert_invert opts hno n]⟩

/-- C6 witness: double inversion at a concrete two-level tree under
`sampleOptions` (no callback configured). -/
theorem invert_twice_identity_witness :
    ((Node.mk ⟨⟨0, 0, 1⟩, 2⟩ [default]
        (some (Node.mk ⟨⟨1, 0, 0⟩, 1⟩ [default] none none)) none).invert
          sampleOptions).invert sampleOptions
      = Node.mk ⟨⟨0, 0, 1⟩, 2⟩ [default]
          (some (Node.mk ⟨⟨1, 0, 0⟩, 1⟩ [default] none none)) none ∧
    (((Node.mk ⟨⟨0, 0, 1⟩, 2⟩ [default]
        (some (Node.mk ⟨⟨1, 0, 0⟩, 1⟩ [default] none none)) none).invert
          sampleOptions).invert sampleOptions).allPolygons
      = (Node.mk ⟨⟨0, 0, 1⟩, 2⟩ [default]
          (some (Node.mk ⟨⟨1, 0, 0⟩, 1⟩ [default] none none)) none).allPolygons :=
  invert_twice_identity sampleOptions
    (Node.mk ⟨⟨0, 0, 1⟩, 2⟩ [default]
      (some (Node.mk ⟨⟨1, 0, 0⟩, 1⟩ [default] none none)) none) rfl

/-! ## Claim C9 -/

/-- C9: in the `Spanning` branch of `split`, an edge with
`(ti | tj) == Spanning` has one endpoint strictly beyond `+epsilon` and the
other strictly beyond `-epsilon`; the interpolation divisor
`dot(plane.normal, vj.position - vi.position)` equals `tj - ti`, its
magnitude exceeds `2 * epsilon`, and in particular it is nonzero for every
positive `epsilon`. -/
theorem spanning_edge_divisor_nonzero (plane : Plane) (vi vj : Vertex) (eps : ℚ)
    (heps : 0 < eps)
    (hspan : Nat.lor (classify (signedDistance plane vi) eps)
        (classify (signedDistance plane vj) eps) = 3) :
    dotProduct plane.normal (vj.position.sub vi.position)
      = signedDistance plane vj - signedDistance plane vi ∧
    2 * eps < |signedDistance plane vj - signedDistance plane vi| ∧
    dotProduct plane.normal (vj.position.sub vi.position) ≠ 0 := by
  have hlin : dotProduct plane.normal (vj.position.sub vi.position)
      = signedDistance plane vj - signedDistance plane vi := by
    unfold dotProduct V3.sub signedDistance dotProduct
    ring
  have hc : ∀ t : ℚ, classify t eps = 0 ∨ classify t eps = 1 ∨ classify t eps = 2 := by
    intro t; unfold classify; split_ifs <;> simp
  have hback : ∀ t : ℚ, classify t eps = 2 → t < -eps := by
    intro t h
    unfold classify at h
    split_ifs at h with hb hf <;> first | assumption | omega
  have hfront : ∀ t : ℚ, classify t eps = 1 → eps < t := by
    intro t h
    unfold classify at h
    split_ifs at h with hb hf <;> first | assumption | omega
  have habs : 2 * eps < |signedDistance plane vj - signedDistance plane vi| := by
    rcases hc (signedDistance plane vi) with h | h | h <;>
      rcases hc (signedDistance plane vj) with g | g | g <;>
      rw [h, g] at hspan <;>
      first
      | exact absurd hspan (by decide)
      | skip
    · have h1 := hfront _ h
      have h2 := hback _ g
      rw [abs_of_neg (by linarith)]
      linarith
    · have h1 := hback _ h
      have h2 := hfront _ g
      rw [abs_of_pos (by linarith)]
      linarith
  refine ⟨hlin, habs, ?_⟩
  rw [hlin]
  intro hz
  rw [hz] at habs
  simp at habs
  linarith

/-- C9 witness: the plane `z = 0` with `epsilon = 1` and an edge from
`z = -2` to `z = 2`. -/
theorem spanning_edge_divisor_nonzero_witness :
    (0 : ℚ) < 1 ∧
    Nat.lor (classify (signedDistance ⟨⟨0, 0, 1⟩, 0⟩ ⟨⟨0, 0, -2⟩, V3.zero⟩) 1)
      (classify (signedDistance ⟨⟨0, 0, 1⟩, 0⟩ ⟨⟨0, 0, 2⟩, V3.zero⟩) 1) = 3 ∧
    dotProduct (Plane.mk ⟨0, 0, 1⟩ 0).normal
      ((Vertex.mk ⟨0, 0, 2⟩ V3.zero).position.sub
        (Vertex.mk ⟨0, 0, -2⟩ V3.zero).position) ≠ 0 :=
  ⟨by norm_num,
   by
     norm_num [classify, signedDistance, dotProduct]
     decide,
   (spanning_edge_divisor_nonzero ⟨⟨0, 0, 1⟩, 0⟩ ⟨⟨0, 0, -2⟩, V3.zero⟩
     ⟨⟨0, 0, 2⟩, V3.zero⟩ 1 (by norm_num)
     (by
       norm_num [classify, signedDistance, dotProduct]
       decide)).2.2⟩

/-! ## Claim C10 -/

/-- C10: when the partition is non-trivial (both child lists non-empty),
`Node::build` builds both subtrees — in particular the back subtree is built
and attached even when the front subtree's build failed — and the returned
error is the front subtree's error when it is set, otherwise the back
subtree's. -/
theorem build_builds_sibling_and_prefers_front_error (normalize : V3 → V3)
    (opts : Options) (plane0 : Plane) (polys0 : List Polygon)
    (front0 back0 : Option Node) (polys : List Polygon) (level : ℕ)
    (plane : Plane) (acc : List Polygon × List Polygon × List Polygon)
    (fr br : Node × Error)
    (hplane : plane = if plane0.isNull then (polys.headD default).plane else plane0)
    (hacc : acc = buildPartition normalize opts plane polys0 polys)
    (hfr : fr = Node.build normalize opts (front0.getD Node.empty) acc.2.1 (level + 1))
    (hbr : br = Node.build normalize opts (back0.getD Node.empty) acc.2.2 (level + 1))
    (hlevel : level < opts.recursionLimit)
    (hinsp : inspect opts Inspection.Event.Build none ≠ Inspection.Result.Abort)
    (hpoly : polys.isEmpty = false)
    (hf : acc.2.1.isEmpty = false) (hb : acc.2.2.isEmpty = false) :
    Node.build normalize opts (Node.mk plane0 polys0 front0 back0) polys level
      = (Node.mk plane acc.1 (some fr.1) (some br.1),
         if fr.2 ≠ Error.NoError then fr.2 else br.2) := by
  have h : ¬ opts.recursionLimit ≤ level := by omega
  rw [Node.build.eq_def, dif_neg h, if_neg hinsp,
    if_neg (show ¬ polys.isEmpty = true by simp [hpoly])]
  dsimp only
  rw [← hplane, ← hacc]
  rw [if_neg (show ¬ acc.2.1.isEmpty = true by simp [hf]),
    if_neg (show ¬ acc.2.2.isEmpty = true by simp [hb])]
  dsimp only
  rw [← hfr, ← hbr]

/-- A polygon coplanar with the plane `z = 0` (used by witnesses). -/
def wPoly0 : Polygon :=
  ⟨[⟨⟨0, 0, 0⟩, ⟨0, 0, 1⟩⟩, ⟨⟨1, 0, 0⟩, ⟨0, 0, 1⟩⟩, ⟨⟨0, 1, 0⟩, ⟨0, 0, 1⟩⟩],
   Shared.null, ⟨⟨0, 0, 1⟩, 0⟩⟩

/-- A polygon entirely in front of the plane `z = 0` (used by witnesses). -/
def wPoly1 : Polygon :=
  ⟨[⟨⟨0, 0, 5⟩, ⟨0, 0, 1⟩⟩, ⟨⟨1, 0, 5⟩, ⟨0, 0, 1⟩⟩, ⟨⟨0, 1, 5⟩, ⟨0, 0, 1⟩⟩],
   Shared.null, ⟨⟨0, 0, 1⟩, 5⟩⟩

/-- A polygon entirely behind the plane `z = 0` (used by witnesses). -/
def wPoly2 : Polygon :=
  ⟨[⟨⟨0, 0, -5⟩, ⟨0, 0, 1⟩⟩, ⟨⟨1, 0, -5⟩, ⟨0, 0, 1⟩⟩, ⟨⟨0, 1, -5⟩, ⟨0, 0, 1⟩⟩],
   Shared.null, ⟨⟨0, 0, 1⟩, -5⟩⟩

/-- C10 witness: building from a coplanar, a front and a back polygon under
`sampleOptions` attaches both children and succeeds. -/
theorem build_builds_sibling_witness :
    Node.build id sampleOptions (Node.mk Plane.null [] none none)
      [wPoly0, wPoly1, wPoly2] 0
      = (Node.mk ⟨⟨0, 0, 1⟩, 0⟩ [wPoly0]
          (some (Node.mk ⟨⟨0, 0, 1⟩, 5⟩ [wPoly1] none none))
          (some (Node.mk ⟨⟨0, 0, 1⟩, -5⟩ [wPoly2] none none)), Error.NoError) := by
  have hplane : (⟨⟨0, 0, 1⟩, 0⟩ : Plane)
      = if Plane.null.isNull then (([wPoly0, wPoly1, wPoly2].headD default)).plane
        else Plane.null := by
    norm_num [Plane.isNull, V3.isNull, Plane.null, wPoly0]
  have l00 : Nat.lor 0 0 = 0 := by decide
  have l01 : Nat.lor 0 1 = 1 := by decide
  have l02 : Nat.lor 0 2 = 2 := by decide
  have l11 : Nat.lor 1 1 = 1 := by decide
  have l22 : Nat.lor 2 2 = 2 := by decide
  have hacc : (([wPoly0], [wPoly1], [wPoly2])
        : List Polygon × List Polygon × List Polygon)
      = buildPartition id sampleOptions ⟨⟨0, 0, 1⟩, 0⟩ [] [wPoly0, wPoly1, wPoly2] := by
    norm_num [buildPartition, split, classifyVertices, classify, signedDistance,
      dotProduct, sampleOptions, wPoly0, wPoly1, wPoly2, l00, l01, l02, l11, l22]
  have hfr : ((Node.mk ⟨⟨0, 0, 1⟩, 5⟩ [wPoly1] none none, Error.NoError) : Node × Error)
      = Node.build id sampleOptions ((none : Option Node).getD Node.empty)
          (([wPoly0], [wPoly1], [wPoly2])
            : List Polygon × List Polygon × List Polygon).2.1 (0 + 1) := by
    rw [Node.build.eq_def]
    norm_num [sampleOptions, inspect, Node.empty, Plane.isNull, V3.isNull, Plane.null,
      buildPartition, split, classifyVertices, classify, signedDistance, dotProduct,
      wPoly1, l00, l01, l02, l11, l22]
    simp
  have hbr : ((Node.mk ⟨⟨0, 0, 1⟩, -5⟩ [wPoly2] none none, Error.NoError) : Node × Error)
      = Node.build id sampleOptions ((none : Option Node).getD Node.empty)
          (([wPoly0], [wPoly1], [wPoly2])
            : List Polygon × List Polygon × List Polygon).2.2 (0 + 1) := by
    rw [Node.build.eq_def]
    norm_num [sampleOptions, inspect, Node.empty, Plane.isNull, V3.isNull, Plane.null,
      buildPartition, split, classifyVertices, classify, signedDistance, dotProduct,
      wPoly2, l00, l01, l02, l11, l22]
    simp
  have hmain := build_builds_sibling_and_prefers_front_error id sampleOptions
    Plane.null [] none none [wPoly0, wPoly1, wPoly2] 0
    ⟨⟨0, 0, 1⟩, 0⟩ ([wPoly0], [wPoly1], [wPoly2])
    (Node.mk ⟨⟨0, 0, 1⟩, 5⟩ [wPoly1] none none, Error.NoError)
    (Node.mk ⟨⟨0, 0, 1⟩, -5⟩ [wPoly2] none none, Error.NoError)
    hplane hacc hfr hbr (by norm_num [sampleOptions])
    (by simp [inspect, sampleOptions]) rfl rfl rfl
  simpa using hmain

/-! ## Claim C4 -/

/-- C4: for error-free operands whose two initial tree builds succeed,
`merge` performs exactly `a.clipTo(b); b.clipTo(a); b.invert();
b.clipTo(a); b.invert(); a.build(b.allPolygons())` — each step seeing the
mutations of the previous ones — and, when that final build succeeds,
returns a `Geometry` holding `a.allPolygons()`. -/
theorem merge_follows_spec_sequence (normalize : V3 → V3) (opts : Options)
    (lhs rhs : Geometry) (ra rb : Node × Error) (a1 b1 b2 b3 b4 : Node)
    (rc : Node × Error)
    (h1 : lhs.error = Error.NoError) (h2 : rhs.error = Error.NoError)
    (hra : ra = Node.build normalize opts Node.empty lhs.polygons 0)
    (hrb : rb = Node.build normalize opts Node.empty rhs.polygons 0)
    (hea : ra.2 = Error.NoError) (heb : rb.2 = Error.NoError)
    (ha1 : a1 = ra.1.clipTo normalize opts rb.1)
    (hb1 : b1 = rb.1.clipTo normalize opts a1)
    (hb2 : b2 = b1.invert opts)
    (hb3 : b3 = b2.clipTo normalize opts a1)
    (hb4 : b4 = b3.invert opts)
    (hrc : rc = Node.build normalize opts a1 b4.allPolygons 0)
    (hec : rc.2 = Error.NoError) :
    merge normalize lhs rhs opts = Geometry.ofPolygons rc.1.allPolygons := by
  subst hra hrb ha1 hb1 hb2 hb3 hb4 hrc
  unfold merge
  simp [reportError, h1, h2, hea, heb, hec]

/-- Building an empty polygon list below the recursion limit with no abort
leaves the node unchanged and reports `NoError`. -/
theorem build_nil (normalize : V3 → V3) (opts : Options) (n : Node) (level : ℕ)
    (hlevel : level < opts.recursionLimit)
    (hinsp : inspect opts Inspection.Event.Build none ≠ Inspection.Result.Abort) :
    Node.build normalize opts n [] level = (n, Error.NoError) := by
  rw [Node.build.eq_def, dif_neg (by omega : ¬ opts.recursionLimit ≤ level), if_neg hinsp]
  rfl

/-- One-step unfolding of `Node::clipTo` at a constructor. -/
theorem clipTo_mk (normalize : V3 → V3) (opts : Options) (plane : Plane)
    (polys : List Polygon) (front back : Option Node) (bsp : Node) :
    Node.clipTo normalize opts (Node.mk plane polys front back) bsp
      = if inspect opts Inspection.Event.Clip (some bsp) = Inspection.Result.Abort then
          Node.mk plane polys front back
        else
          Node.mk plane (bsp.clipPolygons normalize opts polys)
            (match front with | some t => some (t.clipTo normalize opts bsp) | none => none)
            (match back with | some t => some (t.clipTo normalize opts bsp) | none => none) := by
  rw [Node.clipTo.eq_def]

/-- `Node::clipPolygons` at a node with a null plane returns its input. -/
theorem clipPolygons_nullPlane (normalize : V3 → V3) (opts : Options) (plane : Plane)
    (ps polys : List Polygon) (front back : Option Node) (hnull : plane.isNull) :
    Node.clipPolygons normalize opts (Node.mk plane ps front back) polys = polys := by
  rw [Node.clipPolygons.eq_def]
  dsimp only
  rw [if_pos hnull]

/-- One-step unfolding of `Node::allPolygons` at a constructor. -/
theorem allPolygons_mk (plane : Plane) (ps : List Polygon) (front back : Option Node) :
    (Node.mk plane ps front back).allPolygons
      = ps ++ (match front with | some t => t.allPolygons | none => [])
           ++ (match back with | some t => t.allPolygons | none => []) := by
  rw [Node.allPolygons.eq_def]

/-- C4 witness: merging two empty geometries runs the whole sequence on
empty trees and yields the empty geometry. -/
theorem merge_follows_spec_sequence_witness :
    merge id (Geometry.ofPolygons []) (Geometry.ofPolygons []) sampleOptions
      = Geometry.ofPolygons [] := by
  have hnoabort : inspect sampleOptions Inspection.Event.Build none
      ≠ Inspection.Result.Abort := by simp [inspect, sampleOptions]
  have hnil : Node.build id sampleOptions Node.empty [] 0 = (Node.empty, Error.NoError) :=
    build_nil id sampleOptions Node.empty 0 (by norm_num [sampleOptions]) hnoabort
  have hnull : Plane.null.isNull := by
    simp [Plane.isNull, V3.isNull, Plane.null]
  have hclip : Node.empty.clipTo id sampleOptions Node.empty = Node.empty := by
    rw [show Node.empty = Node.mk Plane.null [] none none from rfl, clipTo_mk,
      if_neg (by simp [inspect, sampleOptions]), clipPolygons_nullPlane _ _ _ _ _ _ _ hnull]
  have hinv : Node.empty.invert sampleOptions = Node.empty := by
    rw [show Node.empty = Node.mk Plane.null [] none none from rfl, invert_mk,
      if_neg (by simp [inspect, sampleOptions])]
    simp [Plane.flip, Plane.null, V3.neg, V3.zero]
  have hall : Node.empty.allPolygons = [] := by
    rw [show Node.empty = Node.mk Plane.null [] none none from rfl, allPolygons_mk]
    rfl
  have hrc : ((Node.empty, Error.NoError) : Node × Error)
      = Node.build id sampleOptions Node.empty Node.empty.allPolygons 0 := by
    rw [hall]
    exact hnil.symm
  have h := merge_follows_spec_sequence id sampleOptions
    (Geometry.ofPolygons []) (Geometry.ofPolygons [])
    (Node.empty, Error.NoError) (Node.empty, Error.NoError)
    Node.empty Node.empty Node.empty Node.empty Node.empty
    (Node.empty, Error.NoError)
    rfl rfl hnil.symm hnil.symm rfl rfl
    hclip.symm hclip.symm hinv.symm hclip.symm hinv.symm hrc rfl
  rw [h]
  dsimp only
  rw [hall]

/-! ## Claim C8 -/

/-- C8: `sphere()` with the default tessellation (slices = 16, stacks = 8)
returns exactly 128 polygons; polygon `i` has 3 vertices when
`i % 8 = 0` or `i % 8 = 7` (the polar caps) and 4 vertices otherwise,
for every normalization, trigonometric normal function, center and
radius. -/
theorem sphere_default_counts (normalize : V3 → V3) (sphereNormal : ℕ → ℕ → V3)
    (center : V3) (radius : ℚ) :
    (sphere normalize sphereNormal center radius 16 8).polygons.length = 128 ∧
    ∀ i : ℕ, i < 128 →
      ((sphere normalize sphereNormal center radius 16 8).polygons.getD i
          default).vertices.length
        = if i % 8 = 0 ∨ i % 8 = 7 then 3 else 4 := by
  have hmap : (sphere normalize sphereNormal center radius 16 8).polygons.map
        (fun p => p.vertices.length)
      = (List.range 16).flatMap (fun _ => [3, 4, 4, 4, 4, 4, 4, 3]) := rfl
  have hlen : (sphere normalize sphereNormal center radius 16 8).polygons.length
      = 128 := rfl
  refine ⟨hlen, ?_⟩
  have hget : ∀ i : ℕ, i < 128 →
      ((List.range 16).flatMap fun _ => ([3, 4, 4, 4, 4, 4, 4, 3] : List ℕ)).getD i 0
        = if i % 8 = 0 ∨ i % 8 = 7 then 3 else 4 := by decide
  intro i hi
  have h := List.getD_map (d := (default : Polygon)) (l :=
    (sphere normalize sphereNormal center radius 16 8).polygons)
    (fun p => p.vertices.length) (n := i)
  rw [hmap] at h
  have hd : (default : Polygon).vertices.length = 0 := rfl
  rw [hd] at h
  rw [← h, hget i hi]

/-- C8 witness: at index 0 (a polar cap) the polygon is a triangle, here for
the trivial normalization and a constant normal function. -/
theorem sphere_default_counts_witness :
    ((sphere id (fun _ _ => V3.zero) V3.zero 1 16 8).polygons.getD 0
        default).vertices.length = 3 := by
  have h := (sphere_default_counts id (fun _ _ => V3.zero) V3.zero 1).2 0 (by norm_num)
  simpa using h

end QtCSG
